import Mathlib

/-
Verification development for the vessel-photo scraping pipeline
(modules gcs_helper.py, shipspotting_scraper.py, imo_extractor.py).

The Python modules are shallowly embedded below.  Network and cloud-storage
effects are made explicit:
  * the remote HTTP side is a function from a global request counter (or a
    URL) to an abstract outcome,
  * the cloud bucket's dedup-index document and the in-memory caches form an
    explicit state record that every storage operation threads through.
Machine-irrelevant side channels (logging, sleeps/backoff delays, byte
payloads, timestamps) are dropped; control flow, arithmetic and string
processing are translated statement by statement from the source.
-/

-- ===================== configuration constants =====================
-- Fallback defaults of load_config() in shipspotting_scraper.py
-- (resources/config.yaml is not part of the repository).

def MAX_PHOTOS_PER_IMO : Nat := 40
def MAX_GALLERY_PAGES : Nat := 10
def MAX_RETRIES : Nat := 3

def BASE_URL : String := "https://www.shipspotting.com"

-- ===================== gcs_helper.py : dedup index =====================

/-- Python `str(imo).isdigit() and len(str(imo)) == 7` (ASCII digits). -/
def isValidImo (s : String) : Bool :=
  s.length == 7 && s.data.all Char.isDigit

/-- The storage/cache state a `GCSManager` instance threads through.
`stored` is the `imo_numbers` list of the persisted
`imo_galley.json` document (`none` when the blob does not exist);
`cached` is `_cached_imos`; `pending` is `_new_imos_this_session`. -/
structure GcsState where
  stored : Option (List String)
  cached : Option (Finset String)
  pending : Finset String
deriving DecidableEq

/-- `GCSManager._load_imo_json`: read the persisted document and keep only
identifiers that are 7 decimal digits (the source applies this filter when
interpreting the JSON structure and once more as a final validation; the
two filters coincide).  A missing blob yields the empty set. -/
def load_imo_json (st : GcsState) : Finset String :=
  match st.stored with
  | none => ∅
  | some l => (l.filter (fun s => isValidImo s)).toFinset

/-- `GCSManager._save_imo_json`: filter to valid 7-digit identifiers, sort,
and overwrite the persisted document. -/
def save_imo_json (imos : Finset String) (st : GcsState) : GcsState :=
  { st with stored := some ((imos.filter (fun s => isValidImo s)).sort (· ≤ ·)) }

/-- `GCSManager.check_imo_exists`: membership test against `_cached_imos`,
loading the persisted document into the cache on first use. -/
def check_imo_exists (imo : String) (st : GcsState) : Bool × GcsState :=
  match st.cached with
  | some c => (decide (imo ∈ c), st)
  | none =>
      let c := load_imo_json st
      (decide (imo ∈ c), { st with cached := some c })

/-- `GCSManager.upload_image`: write the image (and metadata) blobs and track
the vessel in `_new_imos_this_session`.  The byte payloads are irrelevant to
the dedup index, so they are not carried; `gcsOk` models whether the bucket
writes raised (the `except` path returns `False` without touching
`_new_imos_this_session`). -/
def upload_image (gcsOk : Bool) (imo photoId : String) (st : GcsState) :
    Bool × GcsState :=
  if gcsOk then
    (true, { st with pending := insert imo st.pending })
  else
    (false, st)

/-- `GCSManager.update_imo_gallery_json`: the end-of-run flush.  Returns
unchanged when nothing is pending; otherwise reloads the freshest persisted
set, unions it with the valid 7-digit pending identifiers, persists the
union, replaces the cache with it and clears the pending set. -/
def update_imo_gallery_json (st : GcsState) : GcsState :=
  if st.pending = ∅ then st
  else
    let current := load_imo_json st
    let validNew := st.pending.filter (fun s => isValidImo s)
    let updated := current ∪ validNew
    let st1 := save_imo_json updated st
    { st1 with cached := some updated, pending := ∅ }

/-- A run's remaining `upload_image` calls after a given one: each entry is
(bucket-write success, vessel id, photo id). -/
def applyUploads (l : List (Bool × String × String)) (st : GcsState) : GcsState :=
  l.foldl (fun s t => (upload_image t.1 t.2.1 t.2.2 s).2) st

-- ============ gcs_helper.py : rebuild_imo_gallery_json ============

def PHOTO_BASE : String := "reidentification/bronze/raw_crops/ship_spotting"

/-- Python `s.rstrip('/')` on the character list. -/
def dropTrailingSlash (l : List Char) : List Char :=
  (l.reverse.dropWhile (fun c => c = '/')).reverse

/-- Python `s.split('/')[-1]` (after the trailing slashes are gone). -/
def lastComponent (l : List Char) : List Char :=
  (l.reverse.takeWhile (fun c => c ≠ '/')).reverse

/-- `prefix.rstrip('/').split('/')[-1]` of the source. -/
def folder_name_of (p : String) : String :=
  String.mk (lastComponent (dropTrailingSlash p.data))

/-- Characters up to (excluding) the first `'/'`; `none` when no `'/'` occurs. -/
def segUpToSlash : List Char → Option (List Char)
  | [] => none
  | c :: t => if c = '/' then some [] else (segUpToSlash t).map (fun s => c :: s)

/-- The delimiter-grouping of an object listing: a key under `pfx` whose
remainder contains `'/'` is rolled up into the "directory"
`pfx ++ segment ++ "/"`; other keys contribute no directory. -/
def dirOf (pfx k : String) : Option String :=
  if pfx.data.isPrefixOf k.data then
    match segUpToSlash (k.data.drop pfx.data.length) with
    | some seg => some (String.mk (pfx.data ++ seg ++ ['/']))
    | none => none
  else none

/-- The distinct folder names the `blobs.prefixes` loop of
`rebuild_imo_gallery_json` sees for a bucket holding `keys`. -/
def galleryFolders (keys : List String) : List String :=
  let pfx := String.mk (dropTrailingSlash PHOTO_BASE.data) ++ "/"
  ((keys.filterMap (fun k => dirOf pfx k)).dedup).map folder_name_of

/-- The separator class `[_\-\s]` of the folder regex
`(?:IMO[_\-\s]*)(\d{7})` (ASCII whitespace). -/
def imoSepChar (c : Char) : Bool :=
  c = '_' || c = '-' || c = ' ' || c = '\t' || c = '\n' ||
  c = '\x0b' || c = '\x0c' || c = '\r'

/-- One anchored attempt of `(?:IMO[_\-\s]*)(\d{7})` (case-insensitive):
`IMO`, then a maximal run of separators, then exactly 7 digits captured.
Separators and digits are disjoint, so the greedy run never backtracks. -/
def imoMatchAt : List Char → Option (List Char)
  | c1 :: c2 :: c3 :: rest =>
      if c1.toLower = 'i' && c2.toLower = 'm' && c3.toLower = 'o' then
        let rest2 := rest.dropWhile (fun c => imoSepChar c)
        let ds := rest2.take 7
        if ds.length == 7 && ds.all Char.isDigit then some ds else none
      else none
  | _ => none

/-- `re.search` of the folder regex: leftmost successful attempt wins. -/
def imoSearch : List Char → Option (List Char)
  | [] => none
  | c :: t =>
      match imoMatchAt (c :: t) with
      | some ds => some ds
      | none => imoSearch t

/-- Python `str.isdigit` (ASCII digits): non-empty and all digits. -/
def pyIsDigit (s : String) : Bool :=
  !s.data.isEmpty && s.data.all Char.isDigit

/-- The per-folder acceptance of `rebuild_imo_gallery_json`: the regex match
(validated to 7 digits), else the bare 7-digit folder name, else nothing. -/
def acceptFolder (folderName : String) : Option String :=
  match imoSearch folderName.data with
  | some ds =>
      let imo := String.mk ds
      if isValidImo imo then some imo else none
  | none =>
      if pyIsDigit folderName && folderName.length == 7 then some folderName
      else none

/-- One iteration of the `existing_imos` accumulation loop: add the
accepted identifier of one folder, if any. -/
def rebuildStep (acc : Finset String) (f : String) : Finset String :=
  match acceptFolder f with
  | some imo => insert imo acc
  | none => acc

/-- The `existing_imos` accumulation loop over the listed folders. -/
def rebuildScan (folders : List String) : Finset String :=
  folders.foldl rebuildStep ∅

/-- `GCSManager.rebuild_imo_gallery_json`: scan the photo prefix of the
bucket (whose object keys are `keys`), collect identifiers from the folder
names, and when any were found persist them and replace the cache. -/
def rebuild_imo_gallery_json (keys : List String) (st : GcsState) :
    Finset String × GcsState :=
  let existing := rebuildScan (galleryFolders keys)
  if existing ≠ ∅ then
    let st1 := save_imo_json existing st
    (existing, { st1 with cached := some existing })
  else
    (existing, st)

-- ========== shipspotting_scraper.py : CloudscraperSession ==========

/-- What the remote side does with one HTTP request: answer with a status
code, or fail at the transport level (an exception in the client). -/
inductive Outcome where
  | resp (status : Nat)
  | exc
deriving DecidableEq

/-- `CloudscraperSession._initialize`, over a remote modelled as a function
from the global request counter to an outcome.  Request `n` is the warm-up
`GET BASE_URL` (checked with `raise_for_status`, so any status at or above
400 raises); request `n+1` is the gallery test; on a 403 test answer a fresh
scraper issues one more test request whose result is not checked.  Returns
the next request counter and whether initialization completed without
raising. -/
def init_session (remote : Nat → Outcome) (n : Nat) : Nat × Bool :=
  match remote n with
  | Outcome.exc => (n + 1, false)
  | Outcome.resp s =>
      if 400 ≤ s then (n + 1, false)
      else
        match remote (n + 1) with
        | Outcome.exc => (n + 2, false)
        | Outcome.resp t =>
            if t = 403 then
              match remote (n + 2) with
              | Outcome.exc => (n + 3, false)
              | Outcome.resp _ => (n + 3, true)
            else (n + 2, true)

/-- The retry loop body of `CloudscraperSession.get`.  `fuel` is the number
of remaining loop iterations (`MAX_RETRIES - attempt`), `attempt` the Python
loop variable, `n` the request counter.  429 backs off and retries; 403
re-initializes the session (an exception there is caught by the surrounding
`except`, which retries unless this was the last attempt); a 5xx retries
unless this was the last attempt; every other response is returned as is;
a transport exception retries unless this was the last attempt, in which
case the call returns `none`.  Falling out of the loop returns `none`. -/
def session_get_aux (remote : Nat → Outcome) :
    Nat → Nat → Nat → Option Nat × Nat
  | 0, _, n => (none, n)
  | fuel + 1, attempt, n =>
      match remote n with
      | Outcome.exc =>
          if attempt < MAX_RETRIES - 1 then
            session_get_aux remote fuel (attempt + 1) (n + 1)
          else (none, n + 1)
      | Outcome.resp s =>
          if s = 429 then session_get_aux remote fuel (attempt + 1) (n + 1)
          else if s = 403 then
            let r := init_session remote (n + 1)
            if r.2 then session_get_aux remote fuel (attempt + 1) r.1
            else if attempt < MAX_RETRIES - 1 then
              session_get_aux remote fuel (attempt + 1) r.1
            else (none, r.1)
          else if 500 ≤ s ∧ attempt < MAX_RETRIES - 1 then
            session_get_aux remote fuel (attempt + 1) (n + 1)
          else (some s, n + 1)

/-- `CloudscraperSession.get`: run the retry loop for `MAX_RETRIES`
iterations starting at request counter `n`.  Returns the response status
(or `none` for failure) and the next request counter. -/
def session_get (remote : Nat → Outcome) (n : Nat) : Option Nat × Nat :=
  session_get_aux remote MAX_RETRIES 0 n

-- ========== shipspotting_scraper.py : gallery page parsing ==========

/-- A gallery page as the scraper sees it after the HTML parse: the HTTP
status, the `href` attributes of the anchor tags, and the visible text. -/
structure GResp where
  status : Nat
  links : List String
  text : String

/-- One anchored attempt of `/photos/(\d+)`: the literal `/photos/`
followed by a maximal non-empty digit run (the capture). -/
def pidMatchAt (l : List Char) : Option (List Char) :=
  if "/photos/".data.isPrefixOf l then
    let rest := l.drop "/photos/".data.length
    let ds := rest.takeWhile Char.isDigit
    if ds.isEmpty then none else some ds
  else none

/-- `re.search(r"/photos/(\d+)", href)`: leftmost attempt wins. -/
def pidSearch : List Char → Option (List Char)
  | [] => none
  | c :: t =>
      match pidMatchAt (c :: t) with
      | some ds => some ds
      | none => pidSearch t

/-- `PhotoFinder.extract_photo_ids`: for each anchor `href` matching the
photo-link pattern, capture the digits and keep them when they form a
digit string of length at least 4.  The result is a set. -/
def extract_photo_ids (links : List String) : Finset String :=
  (links.filterMap (fun href =>
    match (pidSearch href.data).map String.mk with
    | some photoId =>
        if pyIsDigit photoId && decide (4 ≤ photoId.length) then some photoId
        else none
    | none => none)).toFinset

/-- The `\s` class of the count patterns (ASCII whitespace). -/
def spaceChar (c : Char) : Bool :=
  c = ' ' || c = '\t' || c = '\n' || c = '\r' || c = '\x0b' || c = '\x0c'

/-- `\d+` (greedy, non-empty): the captured digits and the remainder. -/
def takeDigits1 (l : List Char) : Option (List Char × List Char) :=
  let ds := l.takeWhile Char.isDigit
  if ds.isEmpty then none else some (ds, l.drop ds.length)

/-- `\s+` (greedy, non-empty): the remainder after the whitespace run. -/
def takeSpaces1 (l : List Char) : Option (List Char) :=
  let ws := l.takeWhile (fun c => spaceChar c)
  if ws.isEmpty then none else some (l.drop ws.length)

/-- A case-insensitive literal (given in lowercase). -/
def litCI : List Char → List Char → Option (List Char)
  | [], rest => some rest
  | _ :: _, [] => none
  | k :: kt, c :: ct => if c.toLower = k then litCI kt ct else none

/-- `x?` for one case-insensitive letter (greedily taken when present; the
following `\s+` can never match the letter, so this never backtracks). -/
def optCI (k : Char) (l : List Char) : List Char :=
  match l with
  | c :: ct => if c.toLower = k then ct else l
  | [] => l

/-- Python `int` on a captured digit string. -/
def digitsToNat (ds : List Char) : Nat :=
  ds.foldl (fun a c => a * 10 + (c.toNat - '0'.toNat)) 0

/-- One anchored attempt of `(\d+)\s+photos?\s+found` (case-insensitive). -/
def patPhotosFoundAt (l : List Char) : Option Nat :=
  match takeDigits1 l with
  | none => none
  | some (ds, r1) =>
      match takeSpaces1 r1 with
      | none => none
      | some r2 =>
          match litCI "photo".data r2 with
          | none => none
          | some r3 =>
              match takeSpaces1 (optCI 's' r3) with
              | none => none
              | some r5 =>
                  match litCI "found".data r5 with
                  | none => none
                  | some _ => some (digitsToNat ds)

/-- One anchored attempt of `found\s+(\d+)\s+photo` (case-insensitive). -/
def patFoundPhotoAt (l : List Char) : Option Nat :=
  match litCI "found".data l with
  | none => none
  | some r1 =>
      match takeSpaces1 r1 with
      | none => none
      | some r2 =>
          match takeDigits1 r2 with
          | none => none
          | some (ds, r3) =>
              match takeSpaces1 r3 with
              | none => none
              | some r4 =>
                  match litCI "photo".data r4 with
                  | none => none
                  | some _ => some (digitsToNat ds)

/-- One anchored attempt of `(\d+)\s+results?\s+found` (case-insensitive). -/
def patResultsFoundAt (l : List Char) : Option Nat :=
  match takeDigits1 l with
  | none => none
  | some (ds, r1) =>
      match takeSpaces1 r1 with
      | none => none
      | some r2 =>
          match litCI "result".data r2 with
          | none => none
          | some r3 =>
              match takeSpaces1 (optCI 's' r3) with
              | none => none
              | some r5 =>
                  match litCI "found".data r5 with
                  | none => none
                  | some _ => some (digitsToNat ds)

/-- `re.search` over the page text: leftmost anchored attempt wins. -/
def searchPat (m : List Char → Option Nat) : List Char → Option Nat
  | [] => m []
  | c :: t =>
      match m (c :: t) with
      | some v => some v
      | none => searchPat m t

/-- `PhotoFinder.get_photo_count`: try the three count patterns in order on
the page text; the first pattern that matches anywhere yields the count,
otherwise the total is unknown (`-1`). -/
def get_photo_count (text : String) : Int :=
  match searchPat patPhotosFoundAt text.data with
  | some n => (n : Int)
  | none =>
      match searchPat patFoundPhotoAt text.data with
      | some n => (n : Int)
      | none =>
          match searchPat patResultsFoundAt text.data with
          | some n => (n : Int)
          | none => -1

-- ========== shipspotting_scraper.py : PhotoFinder discovery ==========

/-- `PhotoFinder.get_gallery_url`. -/
def get_gallery_url (imo sortBy : String) (page : Nat) : String :=
  BASE_URL ++ "/photos/gallery?" ++
    "shipName=&shipNameSearchMode=exact&imo=" ++ imo ++
    "&mmsi=&eni=&callSign=" ++
    "&category=&user=&country=&location=&viewType=normal" ++
    "&sortBy=" ++ sortBy ++ "&page=" ++ toString page

/-- The inner `fetch_page` worker: a page contributes its extracted ids on
an HTTP 200 answer and the empty set otherwise (including a session-level
failure).  `fetch` is the resilient-session GET, already including its
retries, indexed by URL. -/
def fetch_page_ids (fetch : String → Option GResp) (imo sortBy : String)
    (page : Nat) : Finset String :=
  match fetch (get_gallery_url imo sortBy page) with
  | some r => if r.status == 200 then extract_photo_ids r.links else ∅
  | none => ∅

/-- The result-merging loop over the submitted page futures: union each
page's ids in order and stop merging once the target count is reached
(the remaining futures still ran; only their results are dropped). -/
def mergeWithBreak (target : Nat) : Finset String → List (Finset String) → Finset String
  | acc, [] => acc
  | acc, s :: rest =>
      let acc2 := acc ∪ s
      if target ≤ acc2.card then acc2 else mergeWithBreak target acc2 rest

/-- Result of one sort order's paged search, with the number of gallery
pages requested kept as instrumentation (page 1 plus the submitted
pages `2..pagesNeeded`; the executor runs every submitted page). -/
structure SearchOut where
  ids : Finset String
  total : Int
  pagesFetched : Nat

/-- `PhotoFinder.search_gallery_pages_parallel`: fetch page 1, parse the
total and the ids; on a full first page (12 or more ids) estimate how many
pages to fetch — `min(max_pages, 5)` when no positive total was parsed,
else `min(max_pages, ceil(min(target, total) / 12))` — then fetch pages 2
onward and merge with the early-stop loop. -/
def search_gallery_pages_parallel (fetch : String → Option GResp)
    (imo sortBy : String) (maxPages targetCount : Nat) : SearchOut :=
  match fetch (get_gallery_url imo sortBy 1) with
  | none => ⟨∅, -1, 1⟩
  | some r =>
      if r.status ≠ 200 then ⟨∅, -1, 1⟩
      else
        let totalPhotos : Int := get_photo_count r.text
        let page1Ids := extract_photo_ids r.links
        let pagesNeeded : Nat :=
          if 12 ≤ page1Ids.card then
            if totalPhotos ≤ 0 then min maxPages 5
            else
              let photosToFetch := min targetCount totalPhotos.toNat
              min maxPages ((photosToFetch + 12 - 1) / 12)
          else 1
        if pagesNeeded ≤ 1 then
          ⟨page1Ids,
           if 0 < totalPhotos then totalPhotos else (page1Ids.card : Int), 1⟩
        else
          let pageResults := (List.range' 2 (pagesNeeded - 1)).map
            (fun p => fetch_page_ids fetch imo sortBy p)
          let allIds := mergeWithBreak targetCount page1Ids pageResults
          ⟨allIds,
           if 0 < totalPhotos then totalPhotos else (allIds.card : Int),
           pagesNeeded⟩

/-- The `for sort_order in ['oldest', 'popular']` recovery loop of
`find_photos`: three pages of each alternate sort, keeping only unseen ids,
stopping as soon as `min(total, MAX_PHOTOS_PER_IMO)` ids are collected. -/
def sort_order_loop (fetch : String → Option GResp) (imo : String)
    (missing : Nat) (total : Int) :
    List String → Finset String → Finset String
  | [], all => all
  | s :: rest, all =>
      let extra := (search_gallery_pages_parallel fetch imo s 3 missing).ids
      let newIds := extra \ all
      if newIds ≠ ∅ then
        let all2 := all ∪ newIds
        if min total.toNat MAX_PHOTOS_PER_IMO ≤ all2.card then all2
        else sort_order_loop fetch imo missing total rest all2
      else sort_order_loop fetch imo missing total rest all

/-- `PhotoFinder.find_photos`: search the default sort order, fall back to
the alternate sort orders when short, then truncate the collected set to
`MAX_PHOTOS_PER_IMO` ids.  Python's `list(all_photo_ids)` enumerates the
set in an unspecified order; the sorted enumeration models one admissible
order. -/
def find_photos (fetch : String → Option GResp) (imo : String) :
    List String × Int :=
  let out := search_gallery_pages_parallel fetch imo "newest"
    MAX_GALLERY_PAGES MAX_PHOTOS_PER_IMO
  let totalPhotos := out.total
  if totalPhotos = 0 then ([], 0)
  else
    let allIds :=
      if 0 < totalPhotos ∧ out.ids.card < min totalPhotos.toNat MAX_PHOTOS_PER_IMO then
        let missing := min totalPhotos.toNat MAX_PHOTOS_PER_IMO - out.ids.card
        sort_order_loop fetch imo missing totalPhotos ["oldest", "popular"] out.ids
      else out.ids
    let photoList := (allIds.sort (· ≤ ·)).take MAX_PHOTOS_PER_IMO
    (photoList, if 0 < totalPhotos then totalPhotos else (photoList.length : Int))

-- ========== shipspotting_scraper.py : GCSImageUploader ==========

/-- An image-endpoint answer: HTTP status and declared content type.
`Except Unit` separates a transport exception from a response. -/
structure ImgResp where
  status : Nat
  contentType : String

/-- Python `str.lower` (ASCII). -/
def strLower (s : String) : String :=
  String.mk (s.data.map Char.toLower)

/-- `'image' in content_type.lower()`. -/
def has_image_type (ct : String) : Bool :=
  decide ("image".data <:+: (strLower ct).data)

/-- `GCSImageUploader.construct_image_url`: the structurally derived
primary URL (for ids of length at least 3: the last three digits reversed
as path segments), then the two flat fallback URLs. -/
def construct_image_url (photoId : String) : List String :=
  (if 3 ≤ photoId.length then
    let lastThree := photoId.data.drop (photoId.length - 3)
    let path := String.intercalate "/"
      (lastThree.reverse.map (fun c => String.mk [c]))
    [BASE_URL ++ "/photos/big/" ++ path ++ "/" ++ photoId ++ ".jpg"]
  else []) ++
  [BASE_URL ++ "/photos/big/" ++ photoId ++ ".jpg",
   BASE_URL ++ "/photos/large/" ++ photoId ++ ".jpg"]

/-- The candidate-URL loop of `download_and_upload_image`: a transport
exception, a non-200 status, or a non-image content type moves on to the
next candidate; a 200 image answer is uploaded and its upload result
returned at once.  The URLs attempted so far are accumulated (in reverse)
as instrumentation. -/
def download_go (fetch : String → Except Unit ImgResp) (gcsOk : Bool)
    (imo photoId : String) (st : GcsState) :
    List String → List String → Bool × GcsState × List String
  | [], tried => (false, st, tried.reverse)
  | u :: rest, tried =>
      match fetch u with
      | Except.error _ => download_go fetch gcsOk imo photoId st rest (u :: tried)
      | Except.ok r =>
          if r.status == 200 then
            if has_image_type r.contentType then
              let res := upload_image gcsOk imo photoId st
              (res.1, res.2, (u :: tried).reverse)
            else download_go fetch gcsOk imo photoId st rest (u :: tried)
          else download_go fetch gcsOk imo photoId st rest (u :: tried)

/-- `GCSImageUploader.download_and_upload_image` for one (vessel, photo)
pair: try the candidate URLs in order; the third component lists the URLs
actually attempted, in order. -/
def download_and_upload_image (fetch : String → Except Unit ImgResp)
    (gcsOk : Bool) (imo photoId : String) (st : GcsState) :
    Bool × GcsState × List String :=
  download_go fetch gcsOk imo photoId st (construct_image_url photoId) []

/-- Whether the loop accepts the answer at a candidate URL
(HTTP 200 with an image content type). -/
def accepts (fetch : String → Except Unit ImgResp) (u : String) : Bool :=
  match fetch u with
  | Except.error _ => false
  | Except.ok r => r.status == 200 && has_image_type r.contentType

-- ===================== imo_extractor.py =====================

/-- The slice of a Datalastic vessel record the identifier flow reads. -/
structure Vessel where
  imo : Option String
  name : String
deriving DecidableEq

/-- Python `str.strip()` (ASCII whitespace): drop leading and trailing
whitespace characters. -/
def pyStrip (s : String) : String :=
  String.mk
    (((s.data.dropWhile (fun c => spaceChar c)).reverse.dropWhile
      (fun c => spaceChar c)).reverse)

/-- The placeholder values rejected by `get_imo_numbers_with_details`. -/
def IMO_PLACEHOLDERS : List String := ["null", "n/a", "none", "0"]

/-- The per-vessel filter of `get_imo_numbers_with_details`: keep the
stripped `imo` field when the raw value is non-empty, strips to something
non-empty and is not a placeholder (case-insensitive). -/
def imo_keep (v : Vessel) : Option String :=
  match v.imo with
  | some s =>
      if s ≠ "" ∧ pyStrip s ≠ "" ∧ strLower (pyStrip s) ∉ IMO_PLACEHOLDERS then
        some (pyStrip s)
      else none
  | none => none

/-- `HaifaBayTracker.get_imo_numbers_with_details`: the filtered, sorted,
deduplicated identifiers, and the details keyed by identifier.  No 7-digit
check happens here. -/
def get_imo_numbers_with_details (vessels : List Vessel) :
    List String × List (String × Vessel) :=
  ((vessels.filterMap imo_keep).toFinset.sort (· ≤ ·),
   vessels.filterMap (fun v => (imo_keep v).map (fun imo => (imo, v))))

/-- The five fixed identifiers of hardcoded mode. -/
def HARD_CODED_IMOS : List String :=
  ["9387421", "9734567", "9123456", "9701234", "9876543"]

/-- Data-source mode (CLI/ENV/interactive resolution not modelled). -/
inductive ScraperMode where
  | api
  | hardcoded

/-- `extract_haifa_imos`: the fixed list in hardcoded mode, the filtered
API identifiers otherwise (`vessels` is the Datalastic answer). -/
def extract_haifa_imos (vessels : List Vessel) : ScraperMode → List String
  | ScraperMode.hardcoded => HARD_CODED_IMOS
  | ScraperMode.api => (get_imo_numbers_with_details vessels).1

/-- `find_missing_imos`: split the extracted identifiers by membership in
the dedup index; the first component (the missing ones) is what the
scraping pipeline consumes. -/
def find_missing_imos (existing : Finset String) (haifaImos : List String) :
    List String × List String :=
  (haifaImos.filter (fun imo => decide (imo ∉ existing)),
   haifaImos.filter (fun imo => decide (imo ∈ existing)))

-- Demonstration inputs shared by concrete theorems below.

/-- Twelve distinct photo links: a full gallery page. -/
def demoLinks : List String :=
  ["/photos/1000001", "/photos/1000002", "/photos/1000003", "/photos/1000004",
   "/photos/1000005", "/photos/1000006", "/photos/1000007", "/photos/1000008",
   "/photos/1000009", "/photos/1000010", "/photos/1000011", "/photos/1000012"]

/-- A remote whose page 1 for the demo vessel is full but carries no
parsable total count, and whose other pages are empty. -/
def demoFetchNoTotal : String → Option GResp := fun u =>
  if u = get_gallery_url "9169031" "newest" 1 then some ⟨200, demoLinks, ""⟩
  else some ⟨200, [], ""⟩

/-- An image endpoint where the structural primary URL 404s and the first
flat fallback answers with an image. -/
def demoImgFetch : String → Except Unit ImgResp := fun u =>
  if u = BASE_URL ++ "/photos/big/123456.jpg" then
    Except.ok ⟨200, "image/jpeg"⟩
  else Except.ok ⟨404, ""⟩

/-- A bucket listing with two vessel folders, one non-conforming folder,
one loose object under the photo prefix and one unrelated key. -/
def demoKeys : List String :=
  [PHOTO_BASE ++ "/IMO_1234567/a.jpg",
   PHOTO_BASE ++ "/IMO_9999999/b.jpg",
   PHOTO_BASE ++ "/zzz/c.jpg",
   "other/place.txt",
   PHOTO_BASE ++ "/loose.jpg"]

-- ============================ theorems ============================

-- Dedup-index helper lemmas.

theorem mem_load_imo_json_valid {x : String} {st : GcsState}
    (h : x ∈ load_imo_json st) : isValidImo x = true := by
  unfold load_imo_json at h
  cases hs : st.stored with
  | none => rw [hs] at h; simp at h
  | some l =>
      rw [hs] at h
      rw [List.mem_toFinset, List.mem_filter] at h
      exact h.2

theorem load_save_imo_json (imos : Finset String) (st : GcsState) :
    load_imo_json (save_imo_json imos st) =
      imos.filter (fun s => isValidImo s) := by
  have h1 : load_imo_json (save_imo_json imos st) =
      (((imos.filter (fun s => isValidImo s)).sort (· ≤ ·)).filter
        (fun s => isValidImo s)).toFinset := rfl
  have h2 : ((imos.filter (fun s => isValidImo s)).sort (· ≤ ·)).filter
      (fun s => isValidImo s) =
      (imos.filter (fun s => isValidImo s)).sort (· ≤ ·) := by
    apply List.filter_eq_self.mpr
    intro a ha
    have ha2 := (Finset.mem_sort (α := String) (· ≤ ·)).mp ha
    exact (Finset.mem_filter.mp ha2).2
  rw [h1, h2, Finset.sort_toFinset]

theorem load_update_of_pending_ne (st : GcsState) (h : st.pending ≠ ∅) :
    load_imo_json (update_imo_gallery_json st) =
      load_imo_json st ∪ st.pending.filter (fun s => isValidImo s) := by
  have hst : update_imo_gallery_json st =
      { save_imo_json
          (load_imo_json st ∪ st.pending.filter (fun s => isValidImo s)) st with
        cached := some (load_imo_json st ∪ st.pending.filter (fun s => isValidImo s)),
        pending := ∅ } := by
    unfold update_imo_gallery_json
    rw [if_neg h]
  rw [hst]
  have hload : load_imo_json
      { save_imo_json
          (load_imo_json st ∪ st.pending.filter (fun s => isValidImo s)) st with
        cached := some (load_imo_json st ∪ st.pending.filter (fun s => isValidImo s)),
        pending := ∅ } =
      load_imo_json (save_imo_json
        (load_imo_json st ∪ st.pending.filter (fun s => isValidImo s)) st) := rfl
  rw [hload, load_save_imo_json, Finset.filter_eq_self]
  intro x hx
  rcases Finset.mem_union.mp hx with hx | hx
  · exact mem_load_imo_json_valid hx
  · exact (Finset.mem_filter.mp hx).2

theorem update_cached_of_pending_ne (st : GcsState) (h : st.pending ≠ ∅) :
    (update_imo_gallery_json st).cached =
      some (load_imo_json st ∪ st.pending.filter (fun s => isValidImo s)) := by
  unfold update_imo_gallery_json
  rw [if_neg h]

theorem check_of_cached (imo : String) (st : GcsState) (c : Finset String)
    (hc : st.cached = some c) (hm : imo ∈ c) :
    (check_imo_exists imo st).1 = true := by
  unfold check_imo_exists
  rw [hc]
  exact decide_eq_true hm

theorem upload_pending_subset (b : Bool) (i p : String) (s : GcsState) :
    s.pending ⊆ (upload_image b i p s).2.pending := by
  cases b with
  | false => simp [upload_image]
  | true => exact Finset.subset_insert i s.pending

theorem applyUploads_pending_subset (l : List (Bool × String × String))
    (s : GcsState) : s.pending ⊆ (applyUploads l s).pending := by
  induction l generalizing s with
  | nil => simp [applyUploads]
  | cons t l ih =>
      have h1 : applyUploads (t :: l) s =
          applyUploads l (upload_image t.1 t.2.1 t.2.2 s).2 := rfl
      rw [h1]
      exact (upload_pending_subset t.1 t.2.1 t.2.2 s).trans (ih _)

/-- Claim C2: for every valid 7-digit vessel identifier for which an
`upload_image` call returned `true` during a run, after any further uploads
of the run and the single end-of-run `update_imo_gallery_json` flush,
`check_imo_exists` answers `true` for that identifier. -/
theorem uploaded_imo_in_index_after_flush (gcsOk : Bool)
    (imo photoId : String) (st : GcsState)
    (rest : List (Bool × String × String))
    (hval : isValidImo imo = true)
    (hup : (upload_image gcsOk imo photoId st).1 = true) :
    (check_imo_exists imo
      (update_imo_gallery_json
        (applyUploads rest (upload_image gcsOk imo photoId st).2))).1 = true := by
  have hok : gcsOk = true := by
    cases gcsOk with
    | true => rfl
    | false => simp [upload_image] at hup
  subst hok
  have hmem1 : imo ∈ (upload_image true imo photoId st).2.pending := by
    simp [upload_image]
  have hmem2 : imo ∈
      (applyUploads rest (upload_image true imo photoId st).2).pending :=
    applyUploads_pending_subset rest _ hmem1
  set st2 := applyUploads rest (upload_image true imo photoId st).2 with hst2
  have hne : st2.pending ≠ ∅ := Finset.ne_empty_of_mem hmem2
  refine check_of_cached imo _ _ (update_cached_of_pending_ne st2 hne) ?_
  exact Finset.mem_union_right _ (Finset.mem_filter.mpr ⟨hmem2, hval⟩)

/-- Witness for C2 at a concrete run. -/
theorem uploaded_imo_in_index_after_flush_witness :
    isValidImo "9387421" = true ∧
    (upload_image true "9387421" "1000001" ⟨none, none, ∅⟩).1 = true ∧
    (check_imo_exists "9387421"
      (update_imo_gallery_json
        (applyUploads [(true, "9123456", "2000002")]
          (upload_image true "9387421" "1000001" ⟨none, none, ∅⟩).2))).1 = true :=
  ⟨by decide, by decide,
    uploaded_imo_in_index_after_flush true "9387421" "1000001" ⟨none, none, ∅⟩
      [(true, "9123456", "2000002")] (by decide) (by decide)⟩

/-- Claim C3 counterexample: for the state whose persisted document is the
empty list and whose pending set is the single non-7-digit identifier
`"123"`, the flush persists the plain reloaded set, not its union with the
pending set — the invalid pending entry is silently dropped, so the
persisted set after the flush differs from `before ∪ pending`. -/
theorem flush_union_counterexample :
    ¬ (load_imo_json (update_imo_gallery_json ⟨some [], none, {"123"}⟩) =
        load_imo_json ⟨some [], none, {"123"}⟩ ∪
          (GcsState.mk (some []) none {"123"}).pending) := by
  intro h
  rw [load_update_of_pending_ne ⟨some [], none, {"123"}⟩ (by decide)] at h
  revert h
  decide

/-- Claim C3 (amended): the flush persists the union of the reloaded
persisted set with the *valid 7-digit* members of the pending set (when
anything is pending; an empty pending set makes the flush a no-op), and for
every state the persisted set after the flush is a superset of the
persisted set before it. -/
theorem flush_superset_and_valid_union (st : GcsState) :
    load_imo_json st ⊆ load_imo_json (update_imo_gallery_json st) ∧
    (st.pending ≠ ∅ →
      load_imo_json (update_imo_gallery_json st) =
        load_imo_json st ∪ st.pending.filter (fun s => isValidImo s)) := by
  by_cases h : st.pending = ∅
  · constructor
    · unfold update_imo_gallery_json
      rw [if_pos h]
    · intro hne; exact absurd h hne
  · constructor
    · rw [load_update_of_pending_ne st h]
      exact Finset.subset_union_left
    · intro _; exact load_update_of_pending_ne st h

/-- Witness for the amended C3 at a concrete state. -/
theorem flush_superset_and_valid_union_witness :
    (GcsState.mk (some ["1111111"]) none {"123", "2222222"}).pending ≠ ∅ ∧
    load_imo_json (update_imo_gallery_json
        ⟨some ["1111111"], none, {"123", "2222222"}⟩) =
      load_imo_json ⟨some ["1111111"], none, {"123", "2222222"}⟩ ∪
        (GcsState.mk (some ["1111111"]) none {"123", "2222222"}).pending.filter
          (fun s => isValidImo s) :=
  ⟨by decide,
   (flush_superset_and_valid_union ⟨some ["1111111"], none, {"123", "2222222"}⟩).2
     (by decide)⟩

-- Discovery helper lemmas.

theorem mem_extract_photo_ids {pid : String} {links : List String}
    (h : pid ∈ extract_photo_ids links) :
    pyIsDigit pid = true ∧ 4 ≤ pid.length := by
  unfold extract_photo_ids at h
  rw [List.mem_toFinset, List.mem_filterMap] at h
  obtain ⟨href, _hmem, hf⟩ := h
  cases hps : (pidSearch href.data).map String.mk with
  | none => rw [hps] at hf; exact absurd hf (by simp)
  | some q =>
      rw [hps] at hf
      dsimp only at hf
      by_cases hq : (pyIsDigit q && decide (4 ≤ q.length)) = true
      · rw [if_pos hq] at hf
        obtain rfl : q = pid := Option.some.inj hf
        simpa using hq
      · rw [if_neg hq] at hf
        exact absurd hf (by simp)

theorem mem_fetch_page_ids {x : String} (fetch : String → Option GResp)
    (imo sortBy : String) (page : Nat)
    (h : x ∈ fetch_page_ids fetch imo sortBy page) :
    pyIsDigit x = true ∧ 4 ≤ x.length := by
  unfold fetch_page_ids at h
  split at h
  · split at h
    · exact mem_extract_photo_ids h
    · exact absurd h (by simp)
  · exact absurd h (by simp)

theorem mem_mergeWithBreak {x : String} {t : Nat} :
    ∀ {l : List (Finset String)} {acc : Finset String},
      x ∈ mergeWithBreak t acc l → x ∈ acc ∨ ∃ s ∈ l, x ∈ s := by
  intro l
  induction l with
  | nil =>
      intro acc h
      rw [mergeWithBreak] at h
      exact Or.inl h
  | cons s rest ih =>
      intro acc h
      rw [mergeWithBreak] at h
      by_cases hc : t ≤ (acc ∪ s).card
      · rw [if_pos hc] at h
        rcases Finset.mem_union.mp h with h | h
        · exact Or.inl h
        · exact Or.inr ⟨s, List.mem_cons_self s rest, h⟩
      · rw [if_neg hc] at h
        rcases ih h with h | ⟨s2, hs2, hx⟩
        · rcases Finset.mem_union.mp h with h | h
          · exact Or.inl h
          · exact Or.inr ⟨s, List.mem_cons_self s rest, h⟩
        · exact Or.inr ⟨s2, List.mem_cons_of_mem s hs2, hx⟩

theorem mem_search_gallery_ids {x : String} (fetch : String → Option GResp)
    (imo sortBy : String) (maxPages targetCount : Nat)
    (h : x ∈ (search_gallery_pages_parallel fetch imo sortBy
        maxPages targetCount).ids) :
    pyIsDigit x = true ∧ 4 ≤ x.length := by
  unfold search_gallery_pages_parallel at h
  split at h
  · exact absurd h (by simp)
  · rename_i r heq
    split at h
    · exact absurd h (by simp)
    · dsimp only at h
      by_cases hp : (if 12 ≤ (extract_photo_ids r.links).card then
          if get_photo_count r.text ≤ 0 then min maxPages 5
          else min maxPages
            ((min targetCount (get_photo_count r.text).toNat + 12 - 1) / 12)
        else 1) ≤ 1
      · rw [if_pos hp] at h
        exact mem_extract_photo_ids h
      · rw [if_neg hp] at h
        rcases mem_mergeWithBreak h with h2 | ⟨s, hsmem, hx⟩
        · exact mem_extract_photo_ids h2
        · rw [List.mem_map] at hsmem
          obtain ⟨p, _, rfl⟩ := hsmem
          exact mem_fetch_page_ids fetch imo sortBy p hx

theorem mem_sort_order_loop {x : String} (fetch : String → Option GResp)
    (imo : String) (missing : Nat) (total : Int) :
    ∀ (sorts : List String) (all : Finset String),
      (∀ y ∈ all, pyIsDigit y = true ∧ 4 ≤ y.length) →
      x ∈ sort_order_loop fetch imo missing total sorts all →
      pyIsDigit x = true ∧ 4 ≤ x.length := by
  intro sorts
  induction sorts with
  | nil =>
      intro all hall h
      rw [sort_order_loop] at h
      exact hall x h
  | cons s rest ih =>
      intro all hall h
      rw [sort_order_loop] at h
      have hstep : ∀ y ∈ all ∪
          ((search_gallery_pages_parallel fetch imo s 3 missing).ids \ all),
          pyIsDigit y = true ∧ 4 ≤ y.length := by
        intro y hy
        rcases Finset.mem_union.mp hy with hy | hy
        · exact hall y hy
        · exact mem_search_gallery_ids fetch imo s 3 missing
            (Finset.mem_sdiff.mp hy).1
      by_cases hne :
          (search_gallery_pages_parallel fetch imo s 3 missing).ids \ all ≠ ∅
      · rw [if_pos hne] at h
        by_cases hcard : min total.toNat MAX_PHOTOS_PER_IMO ≤
            (all ∪ ((search_gallery_pages_parallel fetch imo s 3 missing).ids \ all)).card
        · rw [if_pos hcard] at h
          exact hstep x h
        · rw [if_neg hcard] at h
          exact ih _ hstep h
      · rw [if_neg hne] at h
        exact ih _ hall h

/-- Claim C10: every identifier produced by gallery-page parsing
(`extract_photo_ids`) — and hence every identifier returned by discovery
(`find_photos`) — is a string of decimal digits of length at least 4. -/
theorem photo_ids_digits_min4 (links : List String)
    (fetch : String → Option GResp) (imo pid : String)
    (h : pid ∈ extract_photo_ids links ∨ pid ∈ (find_photos fetch imo).1) :
    pid.data.all Char.isDigit = true ∧ 4 ≤ pid.length := by
  have base : pyIsDigit pid = true ∧ 4 ≤ pid.length →
      pid.data.all Char.isDigit = true ∧ 4 ≤ pid.length := by
    intro hp
    have h1 := hp.1
    rw [pyIsDigit, Bool.and_eq_true] at h1
    exact ⟨h1.2, hp.2⟩
  rcases h with h | h
  · exact base (mem_extract_photo_ids h)
  · apply base
    unfold find_photos at h
    cases hS : search_gallery_pages_parallel fetch imo "newest"
        MAX_GALLERY_PAGES MAX_PHOTOS_PER_IMO with
    | mk ids total pf =>
        rw [hS] at h
        dsimp only at h
        have hids : ∀ y ∈ ids, pyIsDigit y = true ∧ 4 ≤ y.length := by
          intro y hy
          refine mem_search_gallery_ids fetch imo "newest"
            MAX_GALLERY_PAGES MAX_PHOTOS_PER_IMO ?_
          rw [hS]
          exact hy
        by_cases h0 : total = 0
        · rw [if_pos h0] at h
          exact absurd h (by simp)
        · rw [if_neg h0] at h
          dsimp only at h
          have hmem := (Finset.mem_sort (α := String) (· ≤ ·)).mp
            (List.take_subset _ _ h)
          split at hmem
          · exact mem_sort_order_loop fetch imo _ _ _ _ hids hmem
          · exact hids pid hmem

/-- Witness for C10 at a concrete gallery page. -/
theorem photo_ids_digits_min4_witness :
    ("123456" ∈ extract_photo_ids ["/photos/123456"] ∨
      "123456" ∈ (find_photos (fun _ => none) "9169031").1) ∧
    ("123456".data.all Char.isDigit = true ∧ 4 ≤ "123456".length) :=
  ⟨Or.inl (by decide),
   photo_ids_digits_min4 ["/photos/123456"] (fun _ => none) "9169031" "123456"
     (Or.inl (by decide))⟩

/-- Claim C1: for every remote and vessel identifier, `find_photos` returns
at most `MAX_PHOTOS_PER_IMO` item identifiers and no duplicates. -/
theorem find_photos_bounded_nodup (fetch : String → Option GResp)
    (imo : String) :
    (find_photos fetch imo).1.length ≤ MAX_PHOTOS_PER_IMO ∧
      (find_photos fetch imo).1.Nodup := by
  unfold find_photos
  cases hS : search_gallery_pages_parallel fetch imo "newest"
      MAX_GALLERY_PAGES MAX_PHOTOS_PER_IMO with
  | mk ids total pf =>
      dsimp only
      by_cases h0 : total = 0
      · rw [if_pos h0]
        exact ⟨Nat.zero_le _, List.nodup_nil⟩
      · rw [if_neg h0]
        dsimp only
        constructor
        · rw [List.length_take]
          exact min_le_left _ _
        · exact List.Nodup.sublist (List.take_sublist _ _)
            (Finset.sort_nodup (α := String) (· ≤ ·) _)

set_option maxRecDepth 4000 in
/-- Claim C7 counterexample: a full first page (12 ids) with no parsable
total, searched with the configured `MAX_GALLERY_PAGES = 10`, fetches
`min(10, 5) = 5` pages — not the maximum page limit of 10 that the claim
asserts. -/
theorem unknown_total_pages_not_max_pages :
    (search_gallery_pages_parallel demoFetchNoTotal "9169031" "newest"
        MAX_GALLERY_PAGES MAX_PHOTOS_PER_IMO).pagesFetched ≠
      MAX_GALLERY_PAGES := by
  decide

/-- Claim C7 (amended): when page 1 answers with HTTP 200, a full page
(at least 12 extracted ids) and no positive parsable total, the number of
gallery pages fetched for that sort order is `min(max_pages, 5)` — the
bounded guess is capped at five pages, not at the maximum page limit. -/
theorem unknown_total_pages_min_five (fetch : String → Option GResp)
    (imo sortBy : String) (maxPages targetCount : Nat) (r : GResp)
    (h1 : fetch (get_gallery_url imo sortBy 1) = some r)
    (h2 : r.status = 200)
    (h3 : 12 ≤ (extract_photo_ids r.links).card)
    (h4 : get_photo_count r.text ≤ 0)
    (h5 : 1 ≤ maxPages) :
    (search_gallery_pages_parallel fetch imo sortBy maxPages
        targetCount).pagesFetched = min maxPages 5 := by
  unfold search_gallery_pages_parallel
  rw [h1]
  dsimp only
  rw [if_neg (by rw [h2]; exact fun hne => hne rfl)]
  rw [if_pos h3, if_pos h4]
  by_cases hp : min maxPages 5 ≤ 1
  · rw [if_pos hp]
    show 1 = min maxPages 5
    omega
  · rw [if_neg hp]

set_option maxRecDepth 4000 in
/-- Witness for the amended C7 at the demonstration remote. -/
theorem unknown_total_pages_min_five_witness :
    (search_gallery_pages_parallel demoFetchNoTotal "9169031" "newest"
        MAX_GALLERY_PAGES MAX_PHOTOS_PER_IMO).pagesFetched =
      min MAX_GALLERY_PAGES 5 :=
  unknown_total_pages_min_five demoFetchNoTotal "9169031" "newest"
    MAX_GALLERY_PAGES MAX_PHOTOS_PER_IMO ⟨200, demoLinks, ""⟩ rfl rfl
    (by decide) (by decide) (by decide)

-- Session-layer helper lemmas.

theorem session_get_aux_succ (remote : Nat → Outcome) (fuel attempt n : Nat) :
    session_get_aux remote (fuel + 1) attempt n =
      match remote n with
      | Outcome.exc =>
          if attempt < MAX_RETRIES - 1 then
            session_get_aux remote fuel (attempt + 1) (n + 1)
          else (none, n + 1)
      | Outcome.resp s =>
          if s = 429 then session_get_aux remote fuel (attempt + 1) (n + 1)
          else if s = 403 then
            let r := init_session remote (n + 1)
            if r.2 then session_get_aux remote fuel (attempt + 1) r.1
            else if attempt < MAX_RETRIES - 1 then
              session_get_aux remote fuel (attempt + 1) r.1
            else (none, r.1)
          else if 500 ≤ s ∧ attempt < MAX_RETRIES - 1 then
            session_get_aux remote fuel (attempt + 1) (n + 1)
          else (some s, n + 1) := rfl

theorem init_session_fails (remote : Nat → Outcome)
    (h : ∀ k, remote k = Outcome.resp 429 ∨ remote k = Outcome.resp 403 ∨
      remote k = Outcome.exc) (m : Nat) :
    init_session remote m = (m + 1, false) := by
  rcases h m with hm | hm | hm <;> simp [init_session, hm]

theorem session_get_aux_none (remote : Nat → Outcome)
    (h : ∀ k, remote k = Outcome.resp 429 ∨ remote k = Outcome.resp 403 ∨
      remote k = Outcome.exc) :
    ∀ (fuel attempt n : Nat), (session_get_aux remote fuel attempt n).1 = none := by
  intro fuel
  induction fuel with
  | zero => intro attempt n; rfl
  | succ f ih =>
      intro attempt n
      rw [session_get_aux_succ]
      rcases h n with hn | hn | hn
      · rw [hn]
        dsimp only
        rw [if_pos rfl]
        exact ih (attempt + 1) (n + 1)
      · rw [hn]
        dsimp only
        rw [if_neg (by decide), if_pos rfl,
          init_session_fails remote h (n + 1)]
        dsimp only
        rw [if_neg (by decide)]
        by_cases ha : attempt < MAX_RETRIES - 1
        · rw [if_pos ha]
          exact ih (attempt + 1) (n + 1 + 1)
        · rw [if_neg ha]
      · rw [hn]
        dsimp only
        by_cases ha : attempt < MAX_RETRIES - 1
        · rw [if_pos ha]
          exact ih (attempt + 1) (n + 1)
        · rw [if_neg ha]

/-- Claim C5 counterexample: against a remote that answers HTTP 500 to
every request, `get` exhausts its three attempts and then returns the 500
response itself — a non-success response, not `None`. -/
theorem exhausted_5xx_returns_response :
    (session_get (fun _ => Outcome.resp 500) 0).1 = some 500 := by
  decide

/-- Claim C5 (amended): `get` retries up to `MAX_RETRIES = 3` attempts.
Exhausting the ceiling on HTTP 429, HTTP 403 or transport errors returns
`None`; but an HTTP 5xx response on the final attempt is returned as-is
rather than `None`.  (The backoff delays and their jitter are timing
behaviour outside this embedding.) -/
theorem retry_exhaustion_behavior :
    (∀ remote : Nat → Outcome,
      (∀ k, remote k = Outcome.resp 429 ∨ remote k = Outcome.resp 403 ∨
        remote k = Outcome.exc) →
      (session_get remote 0).1 = none) ∧
    (∀ remote : Nat → Outcome,
      (∀ k, ∃ s, remote k = Outcome.resp s ∧ 500 ≤ s) →
      ∃ s, (session_get remote 0).1 = some s ∧ 500 ≤ s) := by
  constructor
  · intro remote h
    exact session_get_aux_none remote h MAX_RETRIES 0 0
  · intro remote h
    obtain ⟨s0, e0, ge0⟩ := h 0
    obtain ⟨s1, e1, ge1⟩ := h 1
    obtain ⟨s2, e2, ge2⟩ := h 2
    refine ⟨s2, ?_, ge2⟩
    show (session_get_aux remote MAX_RETRIES 0 0).1 = some s2
    rw [show MAX_RETRIES = 2 + 1 from rfl, session_get_aux_succ, e0]
    dsimp only
    rw [if_neg (by omega), if_neg (by omega),
      if_pos (⟨ge0, by decide⟩ : 500 ≤ s0 ∧ 0 < MAX_RETRIES - 1)]
    rw [show (2 : Nat) = 1 + 1 from rfl, session_get_aux_succ, e1]
    dsimp only
    rw [if_neg (by omega), if_neg (by omega),
      if_pos (⟨ge1, by decide⟩ : 500 ≤ s1 ∧ 0 + 1 < MAX_RETRIES - 1)]
    rw [show (1 : Nat) = 0 + 1 from rfl, session_get_aux_succ, e2]
    dsimp only
    rw [if_neg (by omega), if_neg (by omega),
      if_neg (fun hc => absurd hc.2 (by decide))]

/-- Witness for the amended C5: all-429 exhaustion yields `None`; an
all-503 remote yields the 503 response. -/
theorem retry_exhaustion_behavior_witness :
    (session_get (fun _ => Outcome.resp 429) 0).1 = none ∧
    ∃ s, (session_get (fun _ => Outcome.resp 503) 0).1 = some s ∧ 500 ≤ s :=
  ⟨retry_exhaustion_behavior.1 _ (fun _ => Or.inl rfl),
   retry_exhaustion_behavior.2 _ (fun _ => ⟨503, rfl, by norm_num⟩)⟩

/-- Claim C6: a 403 answer makes `get` discard and fully re-create the
session — the re-initialization issues the two warm-up requests — and then
retry: against a remote that answers 403 to its first request and 200 to
every later one, the single `get` call returns the 200 response, and
exactly four requests are made (the 403 gallery request, the two warm-up
requests of the re-established session, and the successful retry). -/
theorem reinit_on_403_returns_200 (remote : Nat → Outcome)
    (h0 : remote 0 = Outcome.resp 403)
    (hk : ∀ k, 0 < k → remote k = Outcome.resp 200) :
    session_get remote 0 = (some 200, 4) := by
  have e1 := hk 1 (by norm_num)
  have e2 := hk 2 (by norm_num)
  have e3 := hk 3 (by norm_num)
  have hinit : init_session remote 1 = (3, true) := by
    rw [init_session, e1]
    dsimp only
    rw [if_neg (by norm_num)]
    rw [show (1 : Nat) + 1 = 2 from rfl, e2]
    dsimp only
    rw [if_neg (by norm_num)]
  show session_get_aux remote MAX_RETRIES 0 0 = (some 200, 4)
  rw [show MAX_RETRIES = 2 + 1 from rfl, session_get_aux_succ, h0]
  dsimp only
  rw [if_neg (by norm_num), if_pos rfl]
  rw [show (0 : Nat) + 1 = 1 from rfl, hinit]
  dsimp only
  rw [if_pos rfl]
  rw [show (2 : Nat) = 1 + 1 from rfl, session_get_aux_succ, e3]
  dsimp only
  rw [if_neg (by norm_num), if_neg (by norm_num),
    if_neg (fun hc => absurd hc.1 (by norm_num))]

/-- Witness for C6 at the concrete 403-then-200 remote. -/
theorem reinit_on_403_returns_200_witness :
    session_get (fun k => if k = 0 then Outcome.resp 403 else Outcome.resp 200)
      0 = (some 200, 4) :=
  reinit_on_403_returns_200 _ rfl
    (fun k hk => by
      rw [if_neg]
      omega)

-- Fetch-and-persist helper lemmas.

theorem download_go_reject (fetch : String → Except Unit ImgResp)
    (gcsOk : Bool) (imo photoId : String) (st : GcsState) :
    ∀ (l tried : List String), (∀ u ∈ l, accepts fetch u = false) →
      download_go fetch gcsOk imo photoId st l tried =
        (false, st, tried.reverse ++ l) := by
  intro l
  induction l with
  | nil => intro tried _; simp [download_go]
  | cons u rest ih =>
      intro tried hall
      have hu : accepts fetch u = false := hall u (List.mem_cons_self u rest)
      have hrest : ∀ v ∈ rest, accepts fetch v = false :=
        fun v hv => hall v (List.mem_cons_of_mem u hv)
      rw [download_go]
      cases hf : fetch u with
      | error e =>
          dsimp only
          rw [ih (u :: tried) hrest]
          simp
      | ok r =>
          dsimp only
          simp only [accepts, hf] at hu
          by_cases h200 : (r.status == 200) = true
          · rw [if_pos h200]
            have himg : has_image_type r.contentType = false := by
              cases himg2 : has_image_type r.contentType
              · rfl
              · rw [h200, himg2] at hu
                exact absurd hu (by simp)
            rw [if_neg (by rw [himg]; exact Bool.false_ne_true),
              ih (u :: tried) hrest]
            simp
          · rw [if_neg h200, ih (u :: tried) hrest]
            simp

theorem download_go_accept (fetch : String → Except Unit ImgResp)
    (gcsOk : Bool) (imo photoId : String) (st : GcsState) :
    ∀ (pre : List String) (u : String) (post tried : List String),
      (∀ v ∈ pre, accepts fetch v = false) → accepts fetch u = true →
      download_go fetch gcsOk imo photoId st (pre ++ u :: post) tried =
        ((upload_image gcsOk imo photoId st).1,
         (upload_image gcsOk imo photoId st).2,
         tried.reverse ++ (pre ++ [u])) := by
  intro pre
  induction pre with
  | nil =>
      intro u post tried _ hu
      rw [List.nil_append, download_go]
      cases hf : fetch u with
      | error e =>
          rw [accepts, hf] at hu
          exact absurd hu (by simp)
      | ok r =>
          dsimp only
          simp only [accepts, hf, Bool.and_eq_true] at hu
          rw [if_pos hu.1, if_pos hu.2]
          simp
  | cons v pre ih =>
      intro u post tried hpre hu
      have hv : accepts fetch v = false := hpre v (List.mem_cons_self v pre)
      have hpre2 : ∀ w ∈ pre, accepts fetch w = false :=
        fun w hw => hpre w (List.mem_cons_of_mem v hw)
      rw [List.cons_append, download_go]
      cases hf : fetch v with
      | error e =>
          dsimp only
          rw [ih u post (v :: tried) hpre2 hu]
          simp
      | ok r =>
          dsimp only
          simp only [accepts, hf] at hv
          by_cases h200 : (r.status == 200) = true
          · rw [if_pos h200]
            have himg : has_image_type r.contentType = false := by
              cases himg2 : has_image_type r.contentType
              · rfl
              · rw [h200, himg2] at hv
                exact absurd hv (by simp)
            rw [if_neg (by rw [himg]; exact Bool.false_ne_true),
              ih u post (v :: tried) hpre2 hu]
            simp
          · rw [if_neg h200, ih u post (v :: tried) hpre2 hu]
            simp

/-- Claim C8: the fetch step tries the ordered candidate URLs in order,
accepts exactly the first HTTP-200 image response (attempting nothing
after it, and reporting the storage write's own result), and when the
whole list is exhausted without acceptance it returns `false` with every
candidate attempted exactly once and no further retry of the list. -/
theorem first_accepted_image_url (fetch : String → Except Unit ImgResp)
    (gcsOk : Bool) (imo photoId : String) (st : GcsState) :
    ((∀ u ∈ construct_image_url photoId, accepts fetch u = false) →
      download_and_upload_image fetch gcsOk imo photoId st =
        (false, st, construct_image_url photoId)) ∧
    (∀ pre u post, construct_image_url photoId = pre ++ u :: post →
      (∀ v ∈ pre, accepts fetch v = false) → accepts fetch u = true →
      download_and_upload_image fetch gcsOk imo photoId st =
        ((upload_image gcsOk imo photoId st).1,
         (upload_image gcsOk imo photoId st).2, pre ++ [u])) := by
  constructor
  · intro hall
    unfold download_and_upload_image
    rw [download_go_reject fetch gcsOk imo photoId st _ [] hall]
    rfl
  · intro pre u post hdecomp hpre hu
    unfold download_and_upload_image
    rw [hdecomp,
      download_go_accept fetch gcsOk imo photoId st pre u post [] hpre hu]
    rfl

/-- Witness for C8: the structural primary URL 404s, the first flat
fallback is an image and is accepted; the last candidate is never tried. -/
theorem first_accepted_image_url_witness :
    download_and_upload_image demoImgFetch true "9169031" "123456"
      ⟨none, none, ∅⟩ =
      ((upload_image true "9169031" "123456" ⟨none, none, ∅⟩).1,
       (upload_image true "9169031" "123456" ⟨none, none, ∅⟩).2,
       [BASE_URL ++ "/photos/big/6/5/4/123456.jpg"] ++
         [BASE_URL ++ "/photos/big/123456.jpg"]) :=
  (first_accepted_image_url demoImgFetch true "9169031" "123456"
      ⟨none, none, ∅⟩).2
    [BASE_URL ++ "/photos/big/6/5/4/123456.jpg"]
    (BASE_URL ++ "/photos/big/123456.jpg")
    [BASE_URL ++ "/photos/large/123456.jpg"]
    (by decide) (by decide) (by decide)

-- Rebuild helper lemmas.

theorem digit_not_sep {c : Char} (h : c.isDigit = true) :
    imoSepChar c = false := by
  cases hs : imoSepChar c
  · rfl
  · exfalso
    simp only [imoSepChar, Bool.or_eq_true, decide_eq_true_eq] at hs
    rcases hs with ((((((h1 | h1) | h1) | h1) | h1) | h1) | h1) | h1 <;>
      (subst h1; exact absurd h (by decide))

theorem dropWhile_sep_digits (l : List Char)
    (hd : l.all Char.isDigit = true) :
    l.dropWhile (fun c => imoSepChar c) = l := by
  cases l with
  | nil => rfl
  | cons d t =>
      have hdig : d.isDigit = true := by
        simp only [List.all_cons, Bool.and_eq_true] at hd
        exact hd.1
      rw [List.dropWhile_cons,
        if_neg (by rw [digit_not_sep hdig]; exact Bool.false_ne_true)]

theorem acceptFolder_imo (id : String) (hval : isValidImo id = true) :
    acceptFolder ("IMO_" ++ id) = some id := by
  obtain ⟨hlen, hdig⟩ : id.length = 7 ∧ id.data.all Char.isDigit = true := by
    simpa [isValidImo] using hval
  have hlen2 : id.data.length = 7 := hlen
  have hdata : ("IMO_" ++ id).data = 'I' :: 'M' :: 'O' :: '_' :: id.data := rfl
  have htake : id.data.take 7 = id.data := by
    rw [← hlen2]
    exact List.take_length id.data
  have hmatch : imoMatchAt ('I' :: 'M' :: 'O' :: '_' :: id.data) =
      some id.data := by
    have hstep : imoMatchAt ('I' :: 'M' :: 'O' :: '_' :: id.data) =
        (if ((List.dropWhile (fun c => imoSepChar c) id.data).take 7).length
              == 7 &&
            ((List.dropWhile (fun c => imoSepChar c) id.data).take 7).all
              Char.isDigit then
          some ((List.dropWhile (fun c => imoSepChar c) id.data).take 7)
        else none) := rfl
    rw [hstep, dropWhile_sep_digits id.data hdig, htake,
      if_pos (by simp [hlen2, hdig])]
  have hsearch : imoSearch (('I' :: 'M' :: 'O' :: '_' :: id.data)) =
      some id.data := by
    rw [imoSearch, hmatch]
  rw [acceptFolder, hdata, hsearch]
  dsimp only
  rw [show String.mk id.data = id from rfl, if_pos hval]

theorem mem_rebuildScan_aux (x : String) :
    ∀ (folders : List String) (acc : Finset String),
      (x ∈ folders.foldl rebuildStep acc) ↔
      (x ∈ acc ∨ ∃ f ∈ folders, acceptFolder f = some x) := by
  intro folders
  induction folders with
  | nil => intro acc; simp
  | cons f rest ih =>
      intro acc
      rw [List.foldl_cons]
      cases hacc : acceptFolder f with
      | none =>
          have hstep : rebuildStep acc f = acc := by
            simp [rebuildStep, hacc]
          rw [hstep, ih acc]
          constructor
          · rintro (h | ⟨g, hg, hx⟩)
            · exact Or.inl h
            · exact Or.inr ⟨g, List.mem_cons_of_mem f hg, hx⟩
          · rintro (h | ⟨g, hg, hx⟩)
            · exact Or.inl h
            · rcases List.mem_cons.mp hg with rfl | hg2
              · rw [hacc] at hx
                exact absurd hx (by simp)
              · exact Or.inr ⟨g, hg2, hx⟩
      | some imo =>
          have hstep : rebuildStep acc f = insert imo acc := by
            simp [rebuildStep, hacc]
          rw [hstep, ih (insert imo acc)]
          constructor
          · rintro (h | ⟨g, hg, hx⟩)
            · rcases Finset.mem_insert.mp h with rfl | h2
              · exact Or.inr ⟨f, List.mem_cons_self f rest, by rw [hacc]⟩
              · exact Or.inl h2
            · exact Or.inr ⟨g, List.mem_cons_of_mem f hg, hx⟩
          · rintro (h | ⟨g, hg, hx⟩)
            · exact Or.inl (Finset.mem_insert_of_mem h)
            · rcases List.mem_cons.mp hg with rfl | hg2
              · rw [hacc] at hx
                obtain rfl := Option.some.inj hx
                exact Or.inl (Finset.mem_insert_self _ acc)
              · exact Or.inr ⟨g, hg2, hx⟩

theorem mem_rebuildScan {x : String} {folders : List String} :
    x ∈ rebuildScan folders ↔ ∃ f ∈ folders, acceptFolder f = some x := by
  rw [rebuildScan, mem_rebuildScan_aux x folders ∅]
  simp

theorem rebuild_fst (keys : List String) (st : GcsState) :
    (rebuild_imo_gallery_json keys st).1 =
      rebuildScan (galleryFolders keys) := by
  simp only [rebuild_imo_gallery_json]
  split <;> rfl

/-- Claim C9 counterexample: a bucket whose photo prefix holds the single
folder `IMO_12345678` — an eight-digit, hence non-conforming, folder name.
The claim requires non-conforming names to be ignored, but the unanchored
regex matches its first seven digits and rebuild returns `{"1234567"}`,
an identifier no vessel folder carries, instead of the empty set. -/
theorem rebuild_nonconforming_not_ignored :
    galleryFolders [PHOTO_BASE ++ "/IMO_12345678/a.jpg"] =
      ["IMO_12345678"] ∧
    (rebuild_imo_gallery_json [PHOTO_BASE ++ "/IMO_12345678/a.jpg"]
        ⟨none, none, ∅⟩).1 = {"1234567"} :=
  ⟨by decide, by decide⟩

/-- Claim C9 (amended): for a bucket whose photo-prefix folders are exactly
the `IMO_<id>` folders of 7-digit identifiers `ids` plus arbitrary further
keys whose folder names fail the code's acceptance test (no case-insensitive
`IMO`-plus-separators-plus-7-digits substring and not a bare 7-digit name),
rebuild returns exactly `ids`.  Folder names that embed `IMO` followed by
more than 7 digits are not rejected by that test: the first 7 digits are
taken (see the counterexample). -/
theorem rebuild_exactly_vessel_folders (keys : List String) (st : GcsState)
    (ids : Finset String)
    (hval : ∀ id ∈ ids, isValidImo id = true)
    (hconf : ∀ f ∈ galleryFolders keys,
      (∃ id ∈ ids, f = "IMO_" ++ id) ∨ acceptFolder f = none)
    (hin : ∀ id ∈ ids, "IMO_" ++ id ∈ galleryFolders keys) :
    (rebuild_imo_gallery_json keys st).1 = ids := by
  rw [rebuild_fst]
  ext x
  rw [mem_rebuildScan]
  constructor
  · rintro ⟨f, hf, hx⟩
    rcases hconf f hf with ⟨id, hid, rfl⟩ | hnone
    · rw [acceptFolder_imo id (hval id hid)] at hx
      obtain rfl := Option.some.inj hx
      exact hid
    · rw [hnone] at hx
      exact absurd hx (by simp)
  · intro hx
    exact ⟨"IMO_" ++ x, hin x hx, acceptFolder_imo x (hval x hx)⟩

/-- Witness for the amended C9 at a concrete bucket listing. -/
theorem rebuild_exactly_vessel_folders_witness :
    (rebuild_imo_gallery_json demoKeys ⟨none, none, ∅⟩).1 =
      ({"1234567", "9999999"} : Finset String) :=
  rebuild_exactly_vessel_folders demoKeys ⟨none, none, ∅⟩
    {"1234567", "9999999"} (by decide) (by decide) (by decide)

-- Identifier-source helper lemma.

theorem get_imo_numbers_singleton :
    (get_imo_numbers_with_details [⟨some "12345", "SMALL COASTER"⟩]).1 =
      ["12345"] := by
  have h1 : ([(⟨some "12345", "SMALL COASTER"⟩ : Vessel)].filterMap
      imo_keep).toFinset = ({"12345"} : Finset String) := by decide
  show (([(⟨some "12345", "SMALL COASTER"⟩ : Vessel)].filterMap
      imo_keep).toFinset.sort (· ≤ ·)) = ["12345"]
  rw [h1]
  exact Finset.sort_singleton _ _

/-- Claim C4 counterexample: the API identifier source accepts the 5-digit
identifier `"12345"` (it is non-empty and not a placeholder), the
missing-vessel split passes it through against an empty dedup index, and
so an identifier that does not match `^\d{7}$` reaches discovery,
download and storage unrejected. -/
theorem invalid_imo_reaches_pipeline :
    extract_haifa_imos [⟨some "12345", "SMALL COASTER"⟩] ScraperMode.api =
      ["12345"] ∧
    (find_missing_imos ∅
      (extract_haifa_imos [⟨some "12345", "SMALL COASTER"⟩]
        ScraperMode.api)).1 = ["12345"] ∧
    isValidImo "12345" = false := by
  have h1 : extract_haifa_imos [⟨some "12345", "SMALL COASTER"⟩]
      ScraperMode.api = ["12345"] := get_imo_numbers_singleton
  refine ⟨h1, ?_, by decide⟩
  rw [h1]
  decide

/-- Claim C4 (amended): identifiers from the API source are validated only
for being non-empty, stripping to something non-empty, and not being a
null placeholder (`null`/`n/a`/`none`/`0`, case-insensitive).  The 7-digit
pattern is not checked before discovery, download or storage use — only
the dedup-index load/save/rebuild applies it.  The hardcoded source's five
identifiers all happen to be 7-digit. -/
theorem api_imos_only_placeholder_filtered (vessels : List Vessel)
    (id : String)
    (h : id ∈ (get_imo_numbers_with_details vessels).1) :
    (id ≠ "" ∧ strLower id ∉ IMO_PLACEHOLDERS ∧
      ∃ v ∈ vessels, ∃ s, v.imo = some s ∧ id = pyStrip s) ∧
    ∀ i ∈ HARD_CODED_IMOS, isValidImo i = true := by
  constructor
  · have h2 : id ∈ vessels.filterMap imo_keep :=
      List.mem_toFinset.mp ((Finset.mem_sort (α := String) (· ≤ ·)).mp h)
    rw [List.mem_filterMap] at h2
    obtain ⟨v, hv, hkeep⟩ := h2
    rw [imo_keep] at hkeep
    cases hio : v.imo with
    | none =>
        rw [hio] at hkeep
        exact absurd hkeep (by simp)
    | some s =>
        rw [hio] at hkeep
        dsimp only at hkeep
        by_cases hc : s ≠ "" ∧ pyStrip s ≠ "" ∧
            strLower (pyStrip s) ∉ IMO_PLACEHOLDERS
        · rw [if_pos hc] at hkeep
          obtain rfl := Option.some.inj hkeep
          exact ⟨hc.2.1, hc.2.2, v, hv, s, hio, rfl⟩
        · rw [if_neg hc] at hkeep
          exact absurd hkeep (by simp)
  · decide

/-- Witness for the amended C4: a padded but valid identifier passes the
filter stripped. -/
theorem api_imos_only_placeholder_filtered_witness :
    "9876543" ∈ (get_imo_numbers_with_details
        [⟨some " 9876543 ", "TEST VESSEL"⟩]).1 ∧
    ("9876543" ≠ "" ∧ strLower "9876543" ∉ IMO_PLACEHOLDERS ∧
      ∃ v ∈ [(⟨some " 9876543 ", "TEST VESSEL"⟩ : Vessel)], ∃ s,
        v.imo = some s ∧ "9876543" = pyStrip s) ∧
    ∀ i ∈ HARD_CODED_IMOS, isValidImo i = true := by
  have hmem : "9876543" ∈ (get_imo_numbers_with_details
      [⟨some " 9876543 ", "TEST VESSEL"⟩]).1 := by
    show "9876543" ∈ (([(⟨some " 9876543 ", "TEST VESSEL"⟩ : Vessel)].filterMap
        imo_keep).toFinset.sort (· ≤ ·))
    apply (Finset.mem_sort (α := String) (· ≤ ·)).mpr
    decide
  have hr := api_imos_only_placeholder_filtered
    [⟨some " 9876543 ", "TEST VESSEL"⟩] "9876543" hmem
  exact ⟨hmem, hr.1, hr.2⟩
